import Mathlib

/-!
# Formal model of the tfit download/cache/config core

This file is a shallow embedding of `src/tfitpy/utils.py` and
`src/tfitpy/config.py` from the `tfit` repository, together with proofs of
the testable properties stated in the specification.

Modelling conventions:

* Python dictionaries (`Dict[str, Any]`) become association lists
  `List (String × PyVal)` with Python's assignment semantics
  (`dictSet` replaces the binding for an existing key in place, otherwise
  appends; `dictUpdate` is `dict.update`).  Python dictionaries have
  unique keys, so theorems about user-supplied dictionaries may assume
  `Nodup` key lists.
* File contents are byte lists (`List Nat`); the filesystem is a partial
  map from path strings to contents.  All paths are taken relative to the
  fixed `base_dir` of one call, so a bare filename stands for
  `base_dir / filename`.
* The cryptographic digest (`hashlib`), environment expansion
  (`os.path.expandvars` / `expanduser`) and the platform data directory
  (`platformdirs`) are external libraries; they enter the model as
  function/value parameters (`hashFn`, `expand_path`, `defaultDataDir`).
* The HTTP layer (`requests`) is modelled by a `server` function from a
  request (URL plus optional `Range: bytes=N-` resume offset) to a
  response (status flag plus body bytes).  The list of requests a call
  performed is returned explicitly so that "zero network requests" is a
  statement about the model.
-/

/-! ## Python values and dictionaries -/

/-- A Python value as it appears in tfit configuration dictionaries:
strings, `pathlib.Path` objects, nested dictionaries, lists, and numbers. -/
inductive PyVal where
  | vStr : String → PyVal
  | vPath : String → PyVal
  | vDict : List (String × PyVal) → PyVal
  | vList : List PyVal → PyVal
  | vInt : Int → PyVal

/-- A Python `Dict[str, Any]` as an ordered association list. -/
abbrev Dict := List (String × PyVal)

/-- `d[k]` / `d.get(k)`: first binding of key `k`. -/
def dictGet : Dict → String → Option PyVal
  | [], _ => none
  | (k0, v) :: rest, k => if k0 = k then some v else dictGet rest k

/-- Python dictionary assignment `d[k] = v`: replace the binding of an
existing key in place, otherwise append the new binding at the end. -/
def dictSet : Dict → String → PyVal → Dict
  | [], k, v => [(k, v)]
  | (k0, v0) :: rest, k, v =>
    if k0 = k then (k, v) :: rest else (k0, v0) :: dictSet rest k v

/-- Python `d1.update(d2)`: assign every binding of `d2` into `d1`. -/
def dictUpdate (d1 d2 : Dict) : Dict :=
  d2.foldl (fun acc kv => dictSet acc kv.1 kv.2) d1

/-- Left-biased choice on optional values. -/
def optOr (a b : Option PyVal) : Option PyVal :=
  match a with
  | some v => some v
  | none => b

/-! ### Dictionary lemmas -/

theorem dictGet_dictSet (d : Dict) (k0 k : String) (v0 : PyVal) :
    dictGet (dictSet d k0 v0) k = if k0 = k then some v0 else dictGet d k := by
  induction d with
  | nil => simp [dictSet, dictGet]
  | cons p rest ih =>
    obtain ⟨k1, v1⟩ := p
    by_cases h1 : k1 = k0
    · subst h1
      by_cases h2 : k1 = k <;> simp [dictSet, dictGet, h2]
    · by_cases h2 : k1 = k
      · subst h2
        have h3 : ¬ k0 = k1 := fun h => h1 h.symm
        simp [dictSet, dictGet, h1, h3]
      · simp [dictSet, dictGet, h1, h2, ih]

theorem dictGet_eq_none_of_not_mem (d : Dict) (k : String)
    (h : k ∉ d.map Prod.fst) : dictGet d k = none := by
  induction d with
  | nil => rfl
  | cons p rest ih =>
    obtain ⟨k1, v1⟩ := p
    simp only [List.map_cons, List.mem_cons] at h
    push_neg at h
    have h3 : ¬ k1 = k := fun hh => h.1 hh.symm
    simp [dictGet, h3, ih h.2]

/-- Key-by-key description of `d1.update(d2)` for a `d2` with unique keys
(the invariant every Python dictionary satisfies): the `d2` binding wins
where present, the `d1` binding is retained elsewhere. -/
theorem dictGet_dictUpdate (d1 d2 : Dict) (k : String)
    (h2 : (d2.map Prod.fst).Nodup) :
    dictGet (dictUpdate d1 d2) k = optOr (dictGet d2 k) (dictGet d1 k) := by
  induction d2 generalizing d1 with
  | nil => simp [dictUpdate, dictGet, optOr]
  | cons p rest ih =>
    obtain ⟨k0, v0⟩ := p
    simp only [List.map_cons, List.nodup_cons] at h2
    have hstep : dictUpdate d1 ((k0, v0) :: rest) = dictUpdate (dictSet d1 k0 v0) rest := rfl
    rw [hstep, ih (dictSet d1 k0 v0) h2.2, dictGet_dictSet]
    by_cases hk : k0 = k
    · subst hk
      rw [dictGet_eq_none_of_not_mem rest k0 h2.1]
      simp [dictGet, optOr]
    · simp [dictGet, hk, optOr]

/-- `dictUpdate` never removes a key: every key present in the base
dictionary is still present after the update. -/
theorem dictGet_dictUpdate_isSome (d1 d2 : Dict) (k : String)
    (h : (dictGet d1 k).isSome) : (dictGet (dictUpdate d1 d2) k).isSome := by
  induction d2 generalizing d1 with
  | nil => exact h
  | cons p rest ih =>
    have hstep : dictUpdate d1 (p :: rest) = dictUpdate (dictSet d1 p.1 p.2) rest := rfl
    rw [hstep]
    apply ih
    rw [dictGet_dictSet]
    by_cases hk : p.1 = k
    · simp [hk]
    · simpa [hk] using h

/-! ## `config.py`: defaults and path expansion

`DEFAULT_CONFIG` in `src/tfitpy/config.py` is the empty dictionary.
`DEFAULT_DATA_DIR` is `platformdirs.user_data_dir("tfitpy", "SVJ")`; the
module creates it at import time, which the theorems record as the
hypothesis `defaultDataDir ∈ dirs` on the pre-state.  `expand_path`
delegates to `os.path.expandvars` / `os.path.expanduser`, so it enters the
model as an opaque function parameter `expand_path : String → String`. -/

/-- `DEFAULT_CONFIG` from `config.py`: the empty dictionary. -/
def DEFAULT_CONFIG : Dict := []

/-! ## `resolve_module_config` (`utils.py`, lines 12-47)

The Python function reads the module-level `DEFAULT_CONFIG` and performs a
`mkdir` side effect; the model threads both explicitly: `defaultConfig` is
the value of the global at call time and is returned so that theorems can
state that the call does not mutate it, and `dirs` is the set of
directories existing on disk. -/

/-- Result of `resolve_module_config`: the resolved configuration, the
(unchanged) module-level `DEFAULT_CONFIG` after the call, and the
directories existing on disk after the call. -/
structure ResolveResult where
  cfg : Dict
  defaultConfig : Dict
  dirs : List String

/-- Step 2 of `resolve_module_config` (value part): `cfg.get("data_path")`
is used when it is a string with non-whitespace content (Python
`isinstance(str)` plus truthy `.strip()`); a `Path` or missing value falls
back to `DEFAULT_DATA_DIR`. -/
def resolvedDataPath (expand_path : String → String) (defaultDataDir : String)
    (cfg1 : Dict) : String :=
  match dictGet cfg1 "data_path" with
  | some (PyVal.vStr s) => if s.trim ≠ "" then expand_path s else defaultDataDir
  | _ => defaultDataDir

/-- Step 2 of `resolve_module_config` (side-effect part): the user-string
branch runs `data_path.mkdir(parents=True, exist_ok=True)`; the fallback
branch does not (the import of `config.py` already created
`DEFAULT_DATA_DIR`). -/
def resolvedDirs (expand_path : String → String) (cfg1 : Dict)
    (dirs : List String) : List String :=
  match dictGet cfg1 "data_path" with
  | some (PyVal.vStr s) => if s.trim ≠ "" then expand_path s :: dirs else dirs
  | _ => dirs

/-- Step 1 of `resolve_module_config`: copy the global defaults and
overlay `user_config` when it is truthy (`if user_config:` — both `None`
and the empty dictionary are falsy in Python). -/
def resolveBase (defaultConfig : Dict) : Option Dict → Dict
  | some u => if u.isEmpty then defaultConfig else dictUpdate defaultConfig u
  | none => defaultConfig

/-- Step 3 of `resolve_module_config` (read part): `cfg.get(module_key)`
when it is a dictionary (Python `isinstance(section, dict)`), the empty
dictionary otherwise. -/
def sectionOf (cfg : Dict) (module_key : String) : Dict :=
  match dictGet cfg module_key with
  | some (PyVal.vDict s) => s
  | _ => []

/-- `resolve_module_config(user_config, module_key, module_defaults)`:

1. copy `DEFAULT_CONFIG` and overlay `user_config` when truthy
   (an empty dictionary is falsy in Python);
2. resolve `data_path` to a `Path`, creating the directory in the
   user-string branch;
3. take the module section of the configuration when it is a dictionary
   (else the empty dictionary), overlay it onto a copy of
   `module_defaults`, and store the merge back under `module_key`. -/
def resolve_module_config (expand_path : String → String)
    (defaultDataDir : String) (defaultConfig : Dict) (dirs : List String)
    (user_config : Option Dict) (module_key : String)
    (module_defaults : Dict) : ResolveResult :=
  let cfg1 := resolveBase defaultConfig user_config
  let cfg2 := dictSet cfg1 "data_path"
    (PyVal.vPath (resolvedDataPath expand_path defaultDataDir cfg1))
  let merged := dictUpdate module_defaults (sectionOf cfg2 module_key)
  ⟨dictSet cfg2 module_key (PyVal.vDict merged), defaultConfig,
   resolvedDirs expand_path cfg1 dirs⟩

/-- The module section the user supplied for `module_key`, when it is a
dictionary (Python `isinstance(section, dict)`); the empty dictionary
otherwise. -/
def userModuleSection (user_config : Option Dict) (module_key : String) : Dict :=
  match user_config with
  | some u =>
    match dictGet u module_key with
    | some (PyVal.vDict s) => s
    | _ => []
  | none => []

/-- The `META` dictionary of `src/tfitpy/data/hippie.py`, which doubles as
the HIPPIE module defaults passed to `resolve_module_config`. -/
def hippieMETA : Dict :=
  [("url", PyVal.vStr "https://cbdm-01.zdv.uni-mainz.de/~mschaefer/hippie/hippie_current.txt"),
   ("about", PyVal.vStr "Latest HIPPIE PPI dataset."),
   ("columns", PyVal.vList
     [PyVal.vStr "uniprot_id_1", PyVal.vStr "entrez_id_1",
      PyVal.vStr "uniprot_id_2", PyVal.vStr "entrez_id_2",
      PyVal.vStr "score", PyVal.vStr "comments"]),
   ("filename", PyVal.vStr "hippie_ppi.txt")]

theorem optOr_none (a : Option PyVal) : optOr a none = a := by
  cases a <;> rfl

/-- When the global defaults are empty (as in `config.py`), the base
configuration is exactly the user dictionary, key by key. -/
theorem dictGet_resolveBase (u : Dict) (k : String)
    (hu : (u.map Prod.fst).Nodup) :
    dictGet (resolveBase DEFAULT_CONFIG (some u)) k = dictGet u k := by
  by_cases he : u.isEmpty
  · rw [List.isEmpty_iff] at he
    subst he
    rfl
  · show dictGet (if u.isEmpty then DEFAULT_CONFIG else dictUpdate DEFAULT_CONFIG u) k = _
    have hd : dictGet DEFAULT_CONFIG k = none := rfl
    rw [if_neg he, dictGet_dictUpdate DEFAULT_CONFIG u k hu, hd, optOr_none]

/-- The resolved data path is among the directories existing after the
call, provided `DEFAULT_DATA_DIR` already existed (it is created when
`config.py` is imported). -/
theorem resolvedDataPath_mem_resolvedDirs (expand_path : String → String)
    (defaultDataDir : String) (cfg1 : Dict) (dirs : List String)
    (hdd : defaultDataDir ∈ dirs) :
    resolvedDataPath expand_path defaultDataDir cfg1 ∈
      resolvedDirs expand_path cfg1 dirs := by
  unfold resolvedDataPath resolvedDirs
  cases h : dictGet cfg1 "data_path" with
  | none => exact hdd
  | some v =>
    cases v with
    | vStr s =>
      by_cases ht : s.trim ≠ ""
      · simp [ht]
      · simp [ht, hdd]
    | vPath p => exact hdd
    | vDict d => exact hdd
    | vList l => exact hdd
    | vInt n => exact hdd

/-- C5: For every user-override mapping, module key, and module-defaults
mapping, the resolved configuration's section for that module equals the
module defaults with the user-supplied keys for that module overlaid on
top key-by-key: for keys the user supplied, the user value wins; for keys
the user did not supply, the default value is retained; the merge is never
an all-or-nothing replacement of the section.  (`module_key` ranges over
the module keys, which are distinct from the reserved top-level key
`"data_path"`; user dictionaries have unique keys.) -/
theorem C5_resolve_module_config_merges_key_by_key
    (expand_path : String → String) (defaultDataDir : String)
    (dirs : List String) (u : Dict) (module_key : String)
    (module_defaults : Dict)
    (hmk : module_key ≠ "data_path")
    (hu : (u.map Prod.fst).Nodup)
    (hs : ((userModuleSection (some u) module_key).map Prod.fst).Nodup) :
    dictGet (resolve_module_config expand_path defaultDataDir DEFAULT_CONFIG
        dirs (some u) module_key module_defaults).cfg module_key =
      some (PyVal.vDict
        (dictUpdate module_defaults (userModuleSection (some u) module_key))) ∧
    ∀ k, dictGet
        (dictUpdate module_defaults (userModuleSection (some u) module_key)) k =
      optOr (dictGet (userModuleSection (some u) module_key) k)
        (dictGet module_defaults k) := by
  have hdp : ¬ ("data_path" = module_key) := fun h => hmk h.symm
  have hsect :
      sectionOf (dictSet (resolveBase DEFAULT_CONFIG (some u)) "data_path"
          (PyVal.vPath (resolvedDataPath expand_path defaultDataDir
            (resolveBase DEFAULT_CONFIG (some u))))) module_key =
        userModuleSection (some u) module_key := by
    unfold sectionOf userModuleSection
    rw [dictGet_dictSet, if_neg hdp, dictGet_resolveBase u module_key hu]
  constructor
  · show dictGet (dictSet _ module_key (PyVal.vDict _)) module_key = _
    rw [dictGet_dictSet, if_pos rfl, hsect]
  · intro k
    exact dictGet_dictUpdate module_defaults _ k hs

/-- C6: Config resolution is idempotent: calling `resolve_module_config`
twice with the same user-supplied arguments — the second call starting
from the global default configuration and the on-disk directories left by
the first call — yields structurally identical resolved configurations. -/
theorem C6_resolve_module_config_idempotent (expand_path : String → String)
    (defaultDataDir : String) (defaultConfig : Dict) (dirs : List String)
    (user_config : Option Dict) (module_key : String)
    (module_defaults : Dict) :
    (resolve_module_config expand_path defaultDataDir
        (resolve_module_config expand_path defaultDataDir defaultConfig dirs
          user_config module_key module_defaults).defaultConfig
        (resolve_module_config expand_path defaultDataDir defaultConfig dirs
          user_config module_key module_defaults).dirs
        user_config module_key module_defaults).cfg =
      (resolve_module_config expand_path defaultDataDir defaultConfig dirs
        user_config module_key module_defaults).cfg := rfl

/-- C9 counterexample: resolving the HIPPIE module against an empty user
configuration yields a configuration with no `"biomart"` key at all
(`DEFAULT_CONFIG` is empty and `resolve_module_config` only installs the
requested module's section), refuting the claim that every recognized
module key is present after resolution. -/
theorem C9_counterexample_other_modules_absent :
    dictGet (resolve_module_config id "defaultDataDir" DEFAULT_CONFIG
        ["defaultDataDir"] none "hippie" hippieMETA).cfg "biomart" = none := by
  rfl

/-- C9 (amended): after every call to `resolve_module_config`, the
resolved `data_path` is a directory existing on disk, and the requested
module key is present in the resolved configuration with at least its
module defaults (every default key is still bound).  Other recognized
module keys are present only when the user configuration supplies them,
since the global `DEFAULT_CONFIG` is empty. -/
theorem C9_resolve_data_path_exists_and_module_defaults_present
    (expand_path : String → String) (defaultDataDir : String)
    (dirs : List String) (user_config : Option Dict) (module_key : String)
    (module_defaults : Dict)
    (hmk : module_key ≠ "data_path")
    (hdd : defaultDataDir ∈ dirs) :
    (∃ p, dictGet (resolve_module_config expand_path defaultDataDir
          DEFAULT_CONFIG dirs user_config module_key module_defaults).cfg
          "data_path" = some (PyVal.vPath p) ∧
        p ∈ (resolve_module_config expand_path defaultDataDir DEFAULT_CONFIG
          dirs user_config module_key module_defaults).dirs) ∧
    (∃ m, dictGet (resolve_module_config expand_path defaultDataDir
          DEFAULT_CONFIG dirs user_config module_key module_defaults).cfg
          module_key = some (PyVal.vDict m) ∧
        ∀ k, (dictGet module_defaults k).isSome → (dictGet m k).isSome) := by
  have hdp : ¬ (module_key = "data_path") := hmk
  constructor
  · refine ⟨resolvedDataPath expand_path defaultDataDir
      (resolveBase DEFAULT_CONFIG user_config), ?_, ?_⟩
    · show dictGet (dictSet (dictSet _ "data_path" _) module_key _) "data_path" = _
      rw [dictGet_dictSet, if_neg hdp, dictGet_dictSet, if_pos rfl]
    · exact resolvedDataPath_mem_resolvedDirs expand_path defaultDataDir _ dirs hdd
  · refine ⟨dictUpdate module_defaults (sectionOf (dictSet
      (resolveBase DEFAULT_CONFIG user_config) "data_path"
      (PyVal.vPath (resolvedDataPath expand_path defaultDataDir
        (resolveBase DEFAULT_CONFIG user_config)))) module_key), ?_, ?_⟩
    · show dictGet (dictSet _ module_key (PyVal.vDict _)) module_key = _
      rw [dictGet_dictSet, if_pos rfl]
    · intro k hk
      exact dictGet_dictUpdate_isSome module_defaults _ k hk

/-- Witness for C9 (amended) at the concrete HIPPIE call with no user
configuration. -/
theorem C9_witness :
    (∃ p, dictGet (resolve_module_config id "defaultDataDir" DEFAULT_CONFIG
          ["defaultDataDir"] none "hippie" hippieMETA).cfg
          "data_path" = some (PyVal.vPath p) ∧
        p ∈ (resolve_module_config id "defaultDataDir" DEFAULT_CONFIG
          ["defaultDataDir"] none "hippie" hippieMETA).dirs) ∧
    (∃ m, dictGet (resolve_module_config id "defaultDataDir" DEFAULT_CONFIG
          ["defaultDataDir"] none "hippie" hippieMETA).cfg
          "hippie" = some (PyVal.vDict m) ∧
        ∀ k, (dictGet hippieMETA k).isSome → (dictGet m k).isSome) :=
  C9_resolve_data_path_exists_and_module_defaults_present id "defaultDataDir"
    ["defaultDataDir"] none "hippie" hippieMETA (by decide) (by decide)

/-- The user configuration of the specification's example scenario:
`{"data_path": "/tmp/x", "hippie": {"filename": "custom.txt"}}`. -/
def exampleUserConfig : Dict :=
  [("data_path", PyVal.vStr "/tmp/x"),
   ("hippie", PyVal.vDict [("filename", PyVal.vStr "custom.txt")])]

/-- Witness for C5 at the specification's example scenario: the resolved
HIPPIE section is the defaults overlaid with the user section; the user's
`filename` wins and the default `url` is retained. -/
theorem C5_witness :
    dictGet (resolve_module_config id "defaultDataDir" DEFAULT_CONFIG
        ["defaultDataDir"] (some exampleUserConfig) "hippie" hippieMETA).cfg
        "hippie" =
      some (PyVal.vDict (dictUpdate hippieMETA
        (userModuleSection (some exampleUserConfig) "hippie"))) ∧
    dictGet (dictUpdate hippieMETA
        (userModuleSection (some exampleUserConfig) "hippie")) "filename" =
      some (PyVal.vStr "custom.txt") ∧
    dictGet (dictUpdate hippieMETA
        (userModuleSection (some exampleUserConfig) "hippie")) "url" =
      dictGet hippieMETA "url" := by
  have h := C5_resolve_module_config_merges_key_by_key id "defaultDataDir"
    ["defaultDataDir"] exampleUserConfig "hippie" hippieMETA
    (by decide) (by decide) (by decide)
  refine ⟨h.1, ?_, ?_⟩
  · rw [h.2 "filename"]
    rfl
  · rw [h.2 "url"]
    rfl

/-! ## The filesystem and HTTP model for `download_file` / `download_zip` -/

/-- The files on disk under the call's `base_dir`: a partial map from
path strings to byte contents. -/
abbrev FileSys := String → Option (List Nat)

/-- One HTTP GET request as `download_file` issues it: the URL and the
optional resume offset `N` carried by a `Range: bytes=N-` header. -/
structure Request where
  url : String
  range : Option Nat

/-- An HTTP response: whether the status was a success (as seen by
`raise_for_status`) and the body bytes the streaming loop will read. -/
structure Response where
  ok : Bool
  body : List Nat

/-- The exceptions `download_file` can raise: `requests.HTTPError` from
`raise_for_status`, and `ValueError` from the final hash check. -/
inductive DlError where
  | httpError
  | valueError

/-- Outcome of one `download_file` call: the filesystem afterwards, the
network requests performed (in order), and the returned path or the
exception raised. -/
structure DlResult where
  fs : FileSys
  requests : List Request
  result : Except DlError String

/-- `verify_hash(path, expected_hash, algorithm)` from `utils.py`: stream
the file's bytes through the digest and compare the hex digest with the
expected string.  The digest computation itself is `hashlib`; it enters
the model as the function parameter `hashFn` from file contents to hex
digest string, so `verify_hash` is the comparison of that digest with
`expected_hash`. -/
def verify_hash (hashFn : List Nat → String) (content : List Nat)
    (expected_hash : String) : Bool :=
  hashFn content = expected_hash

/-- The guard on lines 108-111 of `utils.py`:
`path.exists() and (expected_hash is None or verify_hash(path, expected_hash))`. -/
def alreadySatisfied (hashFn : List Nat → String) (fs : FileSys)
    (path : String) (expected_hash : Option String) : Bool :=
  match fs path with
  | some content =>
    match expected_hash with
    | none => true
    | some h => verify_hash hashFn content h
  | none => false

/-- `resume_byte_pos = path.stat().st_size if path.exists() else 0`. -/
def resumePos (fs : FileSys) (path : String) : Nat :=
  match fs path with
  | some content => content.length
  | none => 0

/-- The single GET request the download path issues:
`headers = {"Range": f"bytes={resume_byte_pos}-"} if resume_byte_pos else {}`
— the header is present exactly when the resume offset is non-zero. -/
def dlRequest (fs : FileSys) (url : String) (path : String) : Request :=
  ⟨url, if resumePos fs path ≠ 0 then some (resumePos fs path) else none⟩

/-- The file contents right after `open(path, "ab" if resume_byte_pos
else "wb")`: append mode keeps the existing bytes, write mode truncates
(and creation yields an empty file). -/
def openedContent (fs : FileSys) (path : String) : List Nat :=
  if resumePos fs path ≠ 0 then (fs path).getD [] else []

/-- `r.iter_content(chunk_size)`: the body split into consecutive chunks
of at most `n` bytes.  (`n = 0` never occurs; the default is 8192.) -/
def chunksOf (n : Nat) (xs : List Nat) : List (List Nat) :=
  if h1 : xs = [] then []
  else if h2 : n = 0 then []
  else xs.take n :: chunksOf n (xs.drop n)
termination_by xs.length
decreasing_by
  have hx : 0 < xs.length := List.length_pos.mpr h1
  have hn : 0 < n := Nat.pos_of_ne_zero h2
  simp only [List.length_drop]
  omega

/-- The streaming loop
`for chunk in r.iter_content(...): if chunk: f.write(chunk)`:
append every non-empty chunk to the file. -/
def writeChunks (f : List Nat) : List (List Nat) → List Nat
  | [] => f
  | c :: rest => writeChunks (if c = [] then f else f ++ c) rest

/-- The destination file's contents after the streaming loop finishes. -/
def streamedContent (server : Request → Response) (fs : FileSys)
    (url : String) (path : String) (chunk_size : Nat) : List Nat :=
  writeChunks (openedContent fs path)
    (chunksOf chunk_size (server (dlRequest fs url path)).body)

/-- `download_file(url, filename, expected_hash, chunk_size, base_dir)`
from `utils.py` (lines 69-143):

1. if the destination exists and (no hash expected or the hash matches),
   return the path immediately with no request;
2. otherwise issue one GET with a `Range` header exactly when a partial
   file is present, opening the destination in append or truncate mode;
3. `raise_for_status` turns an error status into `requests.HTTPError`
   (the file has already been opened at this point);
4. stream the body chunks into the file;
5. `if expected_hash and not verify_hash(...)` raise `ValueError`
   (note Python truthiness: an empty expected-hash string skips this
   check), leaving the written file in place. -/
def download_file (hashFn : List Nat → String) (server : Request → Response)
    (fs : FileSys) (url : String) (filename : String)
    (expected_hash : Option String) (chunk_size : Nat) : DlResult :=
  if alreadySatisfied hashFn fs filename expected_hash then
    ⟨fs, [], Except.ok filename⟩
  else if (server (dlRequest fs url filename)).ok = false then
    ⟨fun p => if p = filename then some (openedContent fs filename) else fs p,
     [dlRequest fs url filename], Except.error DlError.httpError⟩
  else
    let final := streamedContent server fs url filename chunk_size
    let fs2 : FileSys := fun p => if p = filename then some final else fs p
    match expected_hash with
    | some h =>
      if h ≠ "" ∧ verify_hash hashFn final h = false then
        ⟨fs2, [dlRequest fs url filename], Except.error DlError.valueError⟩
      else
        ⟨fs2, [dlRequest fs url filename], Except.ok filename⟩
    | none => ⟨fs2, [dlRequest fs url filename], Except.ok filename⟩

/-- A well-behaved HTTP server holding one resource: it answers a plain
GET with the full resource bytes and honours `Range: bytes=N-` by
answering with the suffix from offset `N`. -/
def honestServer (resource : List Nat) : Request → Response :=
  fun req =>
    match req.range with
    | some offset => ⟨true, resource.drop offset⟩
    | none => ⟨true, resource⟩

/-! ### Streaming lemmas -/

/-- Splitting into chunks of positive size and appending the non-empty
chunks writes exactly the body. -/
theorem writeChunks_chunksOf (n : Nat) (hn : 0 < n) :
    ∀ m (xs : List Nat), xs.length ≤ m →
      ∀ acc, writeChunks acc (chunksOf n xs) = acc ++ xs := by
  intro m
  induction m with
  | zero =>
    intro xs hx acc
    have hxe : xs = [] := by
      cases xs with
      | nil => rfl
      | cons a t => simp at hx
    subst hxe
    rw [chunksOf]
    simp [writeChunks]
  | succ m ih =>
    intro xs hx acc
    by_cases hxe : xs = []
    · subst hxe
      rw [chunksOf]
      simp [writeChunks]
    · rw [chunksOf, dif_neg hxe, dif_neg (Nat.pos_iff_ne_zero.mp hn)]
      have htk : ¬ (xs.take n = []) := by
        intro h
        rcases List.take_eq_nil_iff.mp h with h0 | h0
        · exact Nat.pos_iff_ne_zero.mp hn h0
        · exact hxe h0
      show writeChunks (if xs.take n = [] then acc else acc ++ xs.take n)
          (chunksOf n (xs.drop n)) = acc ++ xs
      rw [if_neg htk]
      have hlen : (xs.drop n).length ≤ m := by
        have hx0 : 0 < xs.length := List.length_pos.mpr hxe
        simp only [List.length_drop]
        omega
      rw [ih (xs.drop n) hlen (acc ++ xs.take n), List.append_assoc,
        List.take_append_drop]

/-- The whole response body ends up appended to the opened file. -/
theorem streamedContent_eq (server : Request → Response) (fs : FileSys)
    (url : String) (path : String) (chunk_size : Nat)
    (hcs : 0 < chunk_size) :
    streamedContent server fs url path chunk_size =
      openedContent fs path ++ (server (dlRequest fs url path)).body := by
  unfold streamedContent
  exact writeChunks_chunksOf chunk_size hcs
    (server (dlRequest fs url path)).body.length _ (Nat.le_refl _) _

/-! ### `download_file` dissection lemmas -/

/-- The already-satisfied branch: no request, no filesystem change. -/
theorem download_file_skip (hashFn : List Nat → String)
    (server : Request → Response) (fs : FileSys) (url filename : String)
    (expected_hash : Option String) (chunk_size : Nat)
    (hsat : alreadySatisfied hashFn fs filename expected_hash = true) :
    download_file hashFn server fs url filename expected_hash chunk_size =
      ⟨fs, [], Except.ok filename⟩ := by
  unfold download_file
  rw [if_pos hsat]

/-- On the download path with a successful status, exactly one request is
made and the destination file holds the streamed contents, whatever the
final hash check decides. -/
theorem download_file_stream (hashFn : List Nat → String)
    (server : Request → Response) (fs : FileSys) (url filename : String)
    (expected_hash : Option String) (chunk_size : Nat)
    (hsat : alreadySatisfied hashFn fs filename expected_hash = false)
    (hok : (server (dlRequest fs url filename)).ok = true) :
    (download_file hashFn server fs url filename expected_hash chunk_size).fs =
      (fun p => if p = filename then
        some (streamedContent server fs url filename chunk_size) else fs p) ∧
    (download_file hashFn server fs url filename expected_hash
        chunk_size).requests = [dlRequest fs url filename] := by
  unfold download_file
  rw [hsat, hok]
  simp only [Bool.false_eq_true, if_false, Bool.true_eq_false]
  cases expected_hash with
  | none => exact ⟨rfl, rfl⟩
  | some h =>
    by_cases hc : h ≠ "" ∧ verify_hash hashFn
        (streamedContent server fs url filename chunk_size) h = false
    · simp only [if_pos hc]
      constructor <;> trivial
    · simp only [if_neg hc]
      constructor <;> trivial

/-- On the download path, a failing final hash check raises `ValueError`. -/
theorem download_file_result_valueError (hashFn : List Nat → String)
    (server : Request → Response) (fs : FileSys) (url filename : String)
    (h : String) (chunk_size : Nat)
    (hsat : alreadySatisfied hashFn fs filename (some h) = false)
    (hok : (server (dlRequest fs url filename)).ok = true)
    (hne : h ≠ "")
    (hmm : verify_hash hashFn
      (streamedContent server fs url filename chunk_size) h = false) :
    (download_file hashFn server fs url filename (some h) chunk_size).result =
      Except.error DlError.valueError := by
  unfold download_file
  rw [hsat, hok]
  simp only [Bool.false_eq_true, if_false, Bool.true_eq_false]
  rw [if_pos ⟨hne, hmm⟩]

/-- On the download path, a passing final hash check returns the path. -/
theorem download_file_result_ok_verified (hashFn : List Nat → String)
    (server : Request → Response) (fs : FileSys) (url filename : String)
    (h : String) (chunk_size : Nat)
    (hsat : alreadySatisfied hashFn fs filename (some h) = false)
    (hok : (server (dlRequest fs url filename)).ok = true)
    (hv : verify_hash hashFn
      (streamedContent server fs url filename chunk_size) h = true) :
    (download_file hashFn server fs url filename (some h) chunk_size).result =
      Except.ok filename := by
  unfold download_file
  rw [hsat, hok]
  simp only [Bool.false_eq_true, if_false, Bool.true_eq_false]
  rw [if_neg]
  intro hc
  rw [hv] at hc
  exact Bool.true_eq_false ▸ hc.2

/-! ## Claim theorems about `download_file` -/

/-- C1: For every call to `download_file` with an expected hash (a hex
digest, hence a non-empty string), if after streaming the response body
the destination file's digest does not equal the expected hash,
`download_file` raises `ValueError`, and the destination file remains on
disk with its written contents — it is not deleted or truncated by the
failure path. -/
theorem C1_download_file_hash_mismatch_raises_and_keeps_file
    (hashFn : List Nat → String) (server : Request → Response) (fs : FileSys)
    (url filename : String) (h : String) (chunk_size : Nat)
    (hsat : alreadySatisfied hashFn fs filename (some h) = false)
    (hok : (server (dlRequest fs url filename)).ok = true)
    (hne : h ≠ "")
    (hmm : verify_hash hashFn
      (streamedContent server fs url filename chunk_size) h = false) :
    (download_file hashFn server fs url filename (some h) chunk_size).result =
      Except.error DlError.valueError ∧
    (download_file hashFn server fs url filename (some h) chunk_size).fs
        filename =
      some (streamedContent server fs url filename chunk_size) := by
  refine ⟨download_file_result_valueError hashFn server fs url filename h
    chunk_size hsat hok hne hmm, ?_⟩
  rw [(download_file_stream hashFn server fs url filename (some h) chunk_size
    hsat hok).1]
  simp

/-- Witness for C1: downloading a three-byte body against expected hash
`"expected"` under a length-counting digest raises `ValueError` and leaves
the three bytes on disk. -/
theorem C1_witness :
    (download_file (fun c => "d" ++ toString c.length)
        (fun _ => ⟨true, [1, 2, 3]⟩) (fun _ => none) "u" "f" (some "expected")
        8192).result = Except.error DlError.valueError ∧
    (download_file (fun c => "d" ++ toString c.length)
        (fun _ => ⟨true, [1, 2, 3]⟩) (fun _ => none) "u" "f" (some "expected")
        8192).fs "f" =
      some (streamedContent (fun _ => ⟨true, [1, 2, 3]⟩) (fun _ => none)
        "u" "f" 8192) :=
  C1_download_file_hash_mismatch_raises_and_keeps_file
    (fun c => "d" ++ toString c.length) (fun _ => ⟨true, [1, 2, 3]⟩)
    (fun _ => none) "u" "f" "expected" 8192 rfl rfl (by decide)
    (by rw [streamedContent_eq _ _ _ _ _ (by decide)]; decide)

/-- C2: For every call to `download_file` where the destination file
already exists and either no expected hash was given or the file's digest
equals the expected hash, `download_file` returns the destination path
immediately, performs zero network requests, and leaves the filesystem
(in particular the file's contents) unchanged. -/
theorem C2_download_file_already_verified_no_request
    (hashFn : List Nat → String) (server : Request → Response) (fs : FileSys)
    (url filename : String) (expected_hash : Option String)
    (chunk_size : Nat) (c : List Nat)
    (hex : fs filename = some c)
    (hv : expected_hash = none ∨
      ∃ h, expected_hash = some h ∧ verify_hash hashFn c h = true) :
    (download_file hashFn server fs url filename expected_hash
        chunk_size).requests = [] ∧
    (download_file hashFn server fs url filename expected_hash
        chunk_size).result = Except.ok filename ∧
    (download_file hashFn server fs url filename expected_hash
        chunk_size).fs = fs := by
  have hsat : alreadySatisfied hashFn fs filename expected_hash = true := by
    rcases hv with hv | ⟨h, heh, hv⟩
    · subst hv
      simp [alreadySatisfied, hex]
    · subst heh
      simp [alreadySatisfied, hex, hv]
  rw [download_file_skip hashFn server fs url filename expected_hash
    chunk_size hsat]
  exact ⟨rfl, rfl, rfl⟩

/-- Witness for C2: a one-byte file whose digest matches the expected
hash is returned immediately with no request. -/
theorem C2_witness :
    (download_file (fun c => "d" ++ toString c.length)
        (fun _ => ⟨true, [9, 9]⟩) (fun _ => some [5]) "u" "f" (some "d1")
        8192).requests = [] ∧
    (download_file (fun c => "d" ++ toString c.length)
        (fun _ => ⟨true, [9, 9]⟩) (fun _ => some [5]) "u" "f" (some "d1")
        8192).result = Except.ok "f" ∧
    (download_file (fun c => "d" ++ toString c.length)
        (fun _ => ⟨true, [9, 9]⟩) (fun _ => some [5]) "u" "f" (some "d1")
        8192).fs = (fun _ => some [5]) :=
  C2_download_file_already_verified_no_request
    (fun c => "d" ++ toString c.length) (fun _ => ⟨true, [9, 9]⟩)
    (fun _ => some [5]) "u" "f" (some "d1") 8192 [5] rfl
    (Or.inr ⟨"d1", rfl, by decide⟩)

/-- C10: For every call to `download_file` with no expected hash where the
destination file already exists with any content — including a strict
prefix of the resource left by an interrupted run — `download_file`
returns the path immediately with zero requests and an unchanged
filesystem, so a partial download made without an expected hash is treated
as complete and is never resumed on re-invocation. -/
theorem C10_download_file_no_hash_never_resumes
    (hashFn : List Nat → String) (server : Request → Response) (fs : FileSys)
    (url filename : String) (chunk_size : Nat) (c : List Nat)
    (hex : fs filename = some c) :
    (download_file hashFn server fs url filename none chunk_size).requests =
      [] ∧
    (download_file hashFn server fs url filename none chunk_size).result =
      Except.ok filename ∧
    (download_file hashFn server fs url filename none chunk_size).fs = fs := by
  have hsat : alreadySatisfied hashFn fs filename none = true := by
    unfold alreadySatisfied
    rw [hex]
  rw [download_file_skip hashFn server fs url filename none chunk_size hsat]
  exact ⟨rfl, rfl, rfl⟩

/-- Witness for C10: a file holding a strict prefix (2 bytes) of a 4-byte
resource is treated as complete when no hash is expected — no request is
issued and the partial content stays. -/
theorem C10_witness :
    (download_file (fun c => "d" ++ toString c.length)
        (honestServer [1, 2, 3, 4]) (fun _ => some [1, 2]) "u" "f" none
        8192).requests = [] ∧
    (download_file (fun c => "d" ++ toString c.length)
        (honestServer [1, 2, 3, 4]) (fun _ => some [1, 2]) "u" "f" none
        8192).result = Except.ok "f" ∧
    (download_file (fun c => "d" ++ toString c.length)
        (honestServer [1, 2, 3, 4]) (fun _ => some [1, 2]) "u" "f" none
        8192).fs = (fun _ => some [1, 2]) :=
  C10_download_file_no_hash_never_resumes
    (fun c => "d" ++ toString c.length) (honestServer [1, 2, 3, 4])
    (fun _ => some [1, 2]) "u" "f" 8192 [1, 2] rfl

/-! ### Lemmas about downloads against a well-behaved server -/

theorem honestServer_ok (resource : List Nat) (req : Request) :
    (honestServer resource req).ok = true := by
  cases hr : req.range <;> simp [honestServer, hr]

/-- An absent destination means the already-satisfied check fails. -/
theorem alreadySatisfied_absent (hashFn : List Nat → String) (fs : FileSys)
    (path : String) (expected_hash : Option String)
    (hex : fs path = none) :
    alreadySatisfied hashFn fs path expected_hash = false := by
  unfold alreadySatisfied
  rw [hex]

/-- An existing destination whose digest mismatches fails the
already-satisfied check. -/
theorem alreadySatisfied_mismatch (hashFn : List Nat → String) (fs : FileSys)
    (path : String) (h : String) (c : List Nat)
    (hex : fs path = some c)
    (hv : verify_hash hashFn c h = false) :
    alreadySatisfied hashFn fs path (some h) = false := by
  simp [alreadySatisfied, hex, hv]

/-- With a destination file of contents `c`, the honest server's ranged
response appends exactly the resource bytes past offset `c.length`
(for an empty `c` the request is un-ranged and the whole resource is
written from scratch, matching the truncating `"wb"` open mode). -/
theorem streamedContent_honest_existing (resource c : List Nat)
    (fs : FileSys) (url path : String) (chunk_size : Nat)
    (hcs : 0 < chunk_size) (hex : fs path = some c) :
    streamedContent (honestServer resource) fs url path chunk_size =
      c ++ resource.drop c.length := by
  rw [streamedContent_eq _ _ _ _ _ hcs]
  have hr : resumePos fs path = c.length := by
    unfold resumePos
    rw [hex]
  by_cases hc : c.length = 0
  · have hce : c = [] := List.length_eq_zero.mp hc
    subst hce
    simp [dlRequest, openedContent, honestServer, hr]
  · simp [dlRequest, openedContent, honestServer, hr, hc, hex]

/-- With no destination file, the request is un-ranged and the whole
resource is streamed. -/
theorem streamedContent_honest_fresh (resource : List Nat) (fs : FileSys)
    (url path : String) (chunk_size : Nat)
    (hcs : 0 < chunk_size) (hex : fs path = none) :
    streamedContent (honestServer resource) fs url path chunk_size =
      resource := by
  rw [streamedContent_eq _ _ _ _ _ hcs]
  have hr : resumePos fs path = 0 := by
    unfold resumePos
    rw [hex]
  simp [dlRequest, openedContent, honestServer, hr]

/-- C3: For every call to `download_file` against a well-behaved server
holding `resource` where the destination file is a partially-written
prefix of size `n > 0` and the already-satisfied check does not apply, the
downloader issues a single GET request carrying `Range: bytes=n-` and
appends the response body to the file, so the final file contents are the
whole resource (in particular the final size equals the full resource
length); when the file is absent, the single request carries no `Range`
header and the file is written from scratch to the whole resource. -/
theorem C3_download_file_resume_request_and_final_size
    (hashFn : List Nat → String) (resource : List Nat) (fs : FileSys)
    (url filename : String) (expected_hash : Option String)
    (chunk_size : Nat) (n : Nat)
    (hcs : 0 < chunk_size) :
    (fs filename = some (resource.take n) → 0 < n → n ≤ resource.length →
      alreadySatisfied hashFn fs filename expected_hash = false →
      (download_file hashFn (honestServer resource) fs url filename
          expected_hash chunk_size).requests = [⟨url, some n⟩] ∧
      (download_file hashFn (honestServer resource) fs url filename
          expected_hash chunk_size).fs filename = some resource) ∧
    (fs filename = none →
      (download_file hashFn (honestServer resource) fs url filename
          expected_hash chunk_size).requests = [⟨url, none⟩] ∧
      (download_file hashFn (honestServer resource) fs url filename
          expected_hash chunk_size).fs filename = some resource) := by
  constructor
  · intro hex hn hnl hsat
    have hlen : (resource.take n).length = n := by
      rw [List.length_take, Nat.min_eq_left hnl]
    have hreq : dlRequest fs url filename = ⟨url, some n⟩ := by
      unfold dlRequest resumePos
      rw [hex]
      have hnz : ¬ ((resource.take n).length = 0) := by omega
      simp [hlen, hnz, Nat.pos_iff_ne_zero.mp hn]
    obtain ⟨hfs, hreqs⟩ := download_file_stream hashFn (honestServer resource)
      fs url filename expected_hash chunk_size hsat (honestServer_ok _ _)
    constructor
    · rw [hreqs, hreq]
    · rw [hfs]
      have hst := streamedContent_honest_existing resource (resource.take n)
        fs url filename chunk_size hcs hex
      simp [hst, hlen, List.take_append_drop]
  · intro hex
    have hsat := alreadySatisfied_absent hashFn fs filename expected_hash hex
    have hreq : dlRequest fs url filename = ⟨url, none⟩ := by
      unfold dlRequest resumePos
      rw [hex]
      simp
    obtain ⟨hfs, hreqs⟩ := download_file_stream hashFn (honestServer resource)
      fs url filename expected_hash chunk_size hsat (honestServer_ok _ _)
    constructor
    · rw [hreqs, hreq]
    · rw [hfs]
      have hst := streamedContent_honest_fresh resource fs url filename
        chunk_size hcs hex
      simp [hst]

/-- Witness for C3: resuming a 2-byte partial file of a 4-byte resource
issues one request with offset 2 and completes the file; a fresh download
issues one un-ranged request and writes the whole resource. -/
theorem C3_witness :
    ((download_file (fun c => "d" ++ toString c.length)
        (honestServer [1, 2, 3, 4]) (fun _ => some [1, 2]) "u" "f"
        (some "want") 8192).requests = [⟨"u", some 2⟩] ∧
     (download_file (fun c => "d" ++ toString c.length)
        (honestServer [1, 2, 3, 4]) (fun _ => some [1, 2]) "u" "f"
        (some "want") 8192).fs "f" = some [1, 2, 3, 4]) ∧
    ((download_file (fun c => "d" ++ toString c.length)
        (honestServer [1, 2, 3, 4]) (fun _ => none) "u" "f"
        (some "want") 8192).requests = [⟨"u", none⟩] ∧
     (download_file (fun c => "d" ++ toString c.length)
        (honestServer [1, 2, 3, 4]) (fun _ => none) "u" "f"
        (some "want") 8192).fs "f" = some [1, 2, 3, 4]) :=
  ⟨(C3_download_file_resume_request_and_final_size
      (fun c => "d" ++ toString c.length) [1, 2, 3, 4] (fun _ => some [1, 2])
      "u" "f" (some "want") 8192 2 (by decide)).1 rfl (by decide) (by decide)
      (by decide),
   (C3_download_file_resume_request_and_final_size
      (fun c => "d" ++ toString c.length) [1, 2, 3, 4] (fun _ => none)
      "u" "f" (some "want") 8192 2 (by decide)).2 rfl⟩

/-- C4: Re-running `download_file` against the same arguments and a
well-behaved server holding `resource` (whose digest is the expected hash
`h`) is safe and idempotent, for every prior state of the destination:

* absent: the re-run downloads and returns the verified file;
* partial (a strict non-empty prefix of the resource): the re-run resumes
  and returns the verified file;
* complete and verified: the re-run returns immediately with zero
  requests and an unchanged filesystem;
* complete but hash-mismatched: the re-run appends the resource suffix
  past the current length, never truncating or deleting what is on disk,
  and returns the file when the result now verifies, or raises the
  integrity error again (keeping the file) when it does not — never
  making the destination less correct than before. -/
theorem C4_download_file_rerun_safe_idempotent (hashFn : List Nat → String)
    (resource : List Nat) (url filename : String) (h : String)
    (chunk_size : Nat)
    (hcs : 0 < chunk_size) (hne : h ≠ "")
    (hres : verify_hash hashFn resource h = true) :
    (∀ fs : FileSys, fs filename = none →
      (download_file hashFn (honestServer resource) fs url filename (some h)
          chunk_size).result = Except.ok filename ∧
      (download_file hashFn (honestServer resource) fs url filename (some h)
          chunk_size).fs filename = some resource) ∧
    (∀ (fs : FileSys) (n : Nat), fs filename = some (resource.take n) →
      0 < n → n < resource.length →
      verify_hash hashFn (resource.take n) h = false →
      (download_file hashFn (honestServer resource) fs url filename (some h)
          chunk_size).result = Except.ok filename ∧
      (download_file hashFn (honestServer resource) fs url filename (some h)
          chunk_size).fs filename = some resource) ∧
    (∀ (fs : FileSys) (c : List Nat), fs filename = some c →
      verify_hash hashFn c h = true →
      (download_file hashFn (honestServer resource) fs url filename (some h)
          chunk_size).requests = [] ∧
      (download_file hashFn (honestServer resource) fs url filename (some h)
          chunk_size).result = Except.ok filename ∧
      (download_file hashFn (honestServer resource) fs url filename (some h)
          chunk_size).fs = fs) ∧
    (∀ (fs : FileSys) (c : List Nat), fs filename = some c →
      verify_hash hashFn c h = false →
      (download_file hashFn (honestServer resource) fs url filename (some h)
          chunk_size).fs filename = some (c ++ resource.drop c.length) ∧
      (verify_hash hashFn (c ++ resource.drop c.length) h = true →
        (download_file hashFn (honestServer resource) fs url filename (some h)
          chunk_size).result = Except.ok filename) ∧
      (verify_hash hashFn (c ++ resource.drop c.length) h = false →
        (download_file hashFn (honestServer resource) fs url filename (some h)
          chunk_size).result = Except.error DlError.valueError)) := by
  refine ⟨?_, ?_, ?_, ?_⟩
  · intro fs hex
    have hsat := alreadySatisfied_absent hashFn fs filename (some h) hex
    have hst := streamedContent_honest_fresh resource fs url filename
      chunk_size hcs hex
    obtain ⟨hfs, _⟩ := download_file_stream hashFn (honestServer resource) fs
      url filename (some h) chunk_size hsat (honestServer_ok _ _)
    constructor
    · apply download_file_result_ok_verified hashFn (honestServer resource) fs
        url filename h chunk_size hsat (honestServer_ok _ _)
      rw [hst]
      exact hres
    · rw [hfs]
      simp [hst]
  · intro fs n hex hn hnl hv
    have hsat := alreadySatisfied_mismatch hashFn fs filename h
      (resource.take n) hex hv
    have hlen : (resource.take n).length = n := by
      rw [List.length_take, Nat.min_eq_left (Nat.le_of_lt hnl)]
    have hst := streamedContent_honest_existing resource (resource.take n) fs
      url filename chunk_size hcs hex
    rw [hlen, List.take_append_drop] at hst
    obtain ⟨hfs, _⟩ := download_file_stream hashFn (honestServer resource) fs
      url filename (some h) chunk_size hsat (honestServer_ok _ _)
    constructor
    · apply download_file_result_ok_verified hashFn (honestServer resource) fs
        url filename h chunk_size hsat (honestServer_ok _ _)
      rw [hst]
      exact hres
    · rw [hfs]
      simp [hst]
  · intro fs c hex hv
    have hsat : alreadySatisfied hashFn fs filename (some h) = true := by
      simp [alreadySatisfied, hex, hv]
    rw [download_file_skip hashFn (honestServer resource) fs url filename
      (some h) chunk_size hsat]
    exact ⟨rfl, rfl, rfl⟩
  · intro fs c hex hv
    have hsat := alreadySatisfied_mismatch hashFn fs filename h c hex hv
    have hst := streamedContent_honest_existing resource c fs url filename
      chunk_size hcs hex
    obtain ⟨hfs, _⟩ := download_file_stream hashFn (honestServer resource) fs
      url filename (some h) chunk_size hsat (honestServer_ok _ _)
    refine ⟨?_, ?_, ?_⟩
    · rw [hfs]
      simp [hst]
    · intro hv2
      apply download_file_result_ok_verified hashFn (honestServer resource) fs
        url filename h chunk_size hsat (honestServer_ok _ _)
      rw [hst]
      exact hv2
    · intro hv2
      apply download_file_result_valueError hashFn (honestServer resource) fs
        url filename h chunk_size hsat (honestServer_ok _ _) hne
      rw [hst]
      exact hv2

/-- Witness for C4: a 1-byte prefix of a 3-byte resource is resumed to
the verified file, and a 4-byte mismatched file is re-grown (no bytes
lost) with the integrity error raised again. -/
theorem C4_witness :
    ((download_file (fun c => "d" ++ toString c.length)
        (honestServer [5, 6, 7]) (fun _ => some [5]) "u" "f" (some "d3")
        8192).result = Except.ok "f" ∧
     (download_file (fun c => "d" ++ toString c.length)
        (honestServer [5, 6, 7]) (fun _ => some [5]) "u" "f" (some "d3")
        8192).fs "f" = some [5, 6, 7]) ∧
    ((download_file (fun c => "d" ++ toString c.length)
        (honestServer [5, 6, 7]) (fun _ => some [9, 9, 9, 9]) "u" "f"
        (some "d3") 8192).fs "f" = some [9, 9, 9, 9] ∧
     (download_file (fun c => "d" ++ toString c.length)
        (honestServer [5, 6, 7]) (fun _ => some [9, 9, 9, 9]) "u" "f"
        (some "d3") 8192).result = Except.error DlError.valueError) := by
  have hmain := C4_download_file_rerun_safe_idempotent
    (fun c => "d" ++ toString c.length) [5, 6, 7] "u" "f" "d3" 8192
    (by decide) (by decide) (by decide)
  have hb := hmain.2.1 (fun _ => some [5]) 1 rfl (by decide) (by decide)
    (by decide)
  have hd := hmain.2.2.2 (fun _ => some [9, 9, 9, 9]) [9, 9, 9, 9] rfl
    (by decide)
  refine ⟨⟨hb.1, hb.2⟩, ?_, ?_⟩
  · have := hd.1
    simpa using this
  · exact hd.2.2 (by decide)

/-! ## `download_zip` (`utils.py`, lines 146-216)

The extraction side needs directories as well as files, so the state is a
`World` of both.  The ZIP format itself is `zipfile`; it enters the model
as a parameter `zipParse` from archive bytes to the optional list of
(member name, member bytes) entries, `none` meaning `zipfile.BadZipFile`.
`base_dir` is again the implicit root of all paths. -/

/-- Filesystem state for `download_zip`: files and directories under
`base_dir`.  `dirs d = some entries` means directory `d` exists and holds
`entries`. -/
structure World where
  files : FileSys
  dirs : String → Option (List String)

/-- The exceptions `download_zip` can raise: the two `download_file`
exceptions plus `zipfile.BadZipFile` from opening the archive. -/
inductive ZipError where
  | httpError
  | valueError
  | badZipFile

/-- Outcome of one `download_zip` call. -/
structure ZipResult where
  world : World
  requests : List Request
  result : Except ZipError String

/-- `zip_path = base_dir / f"temp_{extract_folder}.zip"`. -/
def tempZipName (extract_folder : String) : String :=
  "temp_" ++ extract_folder ++ ".zip"

/-- The skip guard:
`extract_path.exists() and any(extract_path.iterdir())`. -/
def zipSkip (w : World) (extract_folder : String) : Bool :=
  match w.dirs extract_folder with
  | some entries => ¬ entries.isEmpty
  | none => false

/-- The file map after `if zip_path.exists(): zip_path.unlink()`. -/
def filesAfterUnlink (w : World) (extract_folder : String) : FileSys :=
  fun p => if p = tempZipName extract_folder then none else w.files p

/-- Lift a `download_file` exception into a `download_zip` exception. -/
def liftDlError : DlError → ZipError
  | DlError.httpError => ZipError.httpError
  | DlError.valueError => ZipError.valueError

/-- `download_zip(url, extract_folder, expected_hash, base_dir)`:

1. if the extraction directory exists and holds at least one entry,
   return it immediately (no download, no extraction);
2. remove any stale temporary archive, then `download_file` the archive
   to `temp_{extract_folder}.zip` (exceptions propagate with the
   filesystem as the inner call left it);
3. `extract_path.mkdir(parents=True, exist_ok=True)`;
4. open the archive: an invalid ZIP raises `BadZipFile` here — after the
   `mkdir`, and before the `unlink` that only runs on success — so the
   temporary file stays on disk;
5. on success extract every member into the extraction directory, then
   delete the temporary archive. -/
def download_zip (hashFn : List Nat → String)
    (zipParse : List Nat → Option (List (String × List Nat)))
    (server : Request → Response) (w : World) (url : String)
    (extract_folder : String) (expected_hash : Option String) : ZipResult :=
  if zipSkip w extract_folder then
    ⟨w, [], Except.ok extract_folder⟩
  else
    let files1 := filesAfterUnlink w extract_folder
    let dl := download_file hashFn server files1 url
      (tempZipName extract_folder) expected_hash 8192
    match dl.result with
    | Except.error e => ⟨⟨dl.fs, w.dirs⟩, dl.requests, Except.error (liftDlError e)⟩
    | Except.ok _ =>
      let dirs2 := fun d => if d = extract_folder then
        some ((w.dirs extract_folder).getD []) else w.dirs d
      match zipParse ((dl.fs (tempZipName extract_folder)).getD []) with
      | none => ⟨⟨dl.fs, dirs2⟩, dl.requests, Except.error ZipError.badZipFile⟩
      | some entries =>
        let files3 : FileSys := fun p =>
          match entries.find? (fun e => extract_folder ++ "/" ++ e.1 = p) with
          | some e => some e.2
          | none => dl.fs p
        let files4 : FileSys := fun p =>
          if p = tempZipName extract_folder then none else files3 p
        let dirs3 := fun d => if d = extract_folder then
          some (entries.map Prod.fst) else w.dirs d
        ⟨⟨files4, dirs3⟩, dl.requests, Except.ok extract_folder⟩

/-- C7: For every call to `download_zip` where the extraction directory
already exists and contains at least one entry, `download_zip` performs no
download and no extraction, and returns the extraction directory path with
the filesystem (files and directories) unchanged. -/
theorem C7_download_zip_nonempty_dir_skips
    (hashFn : List Nat → String)
    (zipParse : List Nat → Option (List (String × List Nat)))
    (server : Request → Response) (w : World) (url : String)
    (extract_folder : String) (expected_hash : Option String)
    (entries : List String)
    (hdir : w.dirs extract_folder = some entries)
    (hne : entries ≠ []) :
    (download_zip hashFn zipParse server w url extract_folder
        expected_hash).requests = [] ∧
    (download_zip hashFn zipParse server w url extract_folder
        expected_hash).result = Except.ok extract_folder ∧
    (download_zip hashFn zipParse server w url extract_folder
        expected_hash).world = w := by
  have hskip : zipSkip w extract_folder = true := by
    simp [zipSkip, hdir, hne]
  unfold download_zip
  rw [if_pos hskip]
  exact ⟨rfl, rfl, rfl⟩

/-- Witness for C7: a one-entry extraction directory short-circuits the
call. -/
theorem C7_witness :
    (download_zip (fun c => "d" ++ toString c.length) (fun _ => none)
        (fun _ => ⟨true, [1]⟩)
        ⟨fun _ => none, fun _ => some ["member.txt"]⟩ "u" "biogrid"
        none).requests = [] ∧
    (download_zip (fun c => "d" ++ toString c.length) (fun _ => none)
        (fun _ => ⟨true, [1]⟩)
        ⟨fun _ => none, fun _ => some ["member.txt"]⟩ "u" "biogrid"
        none).result = Except.ok "biogrid" ∧
    (download_zip (fun c => "d" ++ toString c.length) (fun _ => none)
        (fun _ => ⟨true, [1]⟩)
        ⟨fun _ => none, fun _ => some ["member.txt"]⟩ "u" "biogrid"
        none).world =
      ⟨fun _ => none, fun _ => some ["member.txt"]⟩ :=
  C7_download_zip_nonempty_dir_skips (fun c => "d" ++ toString c.length)
    (fun _ => none) (fun _ => ⟨true, [1]⟩)
    ⟨fun _ => none, fun _ => some ["member.txt"]⟩ "u" "biogrid" none
    ["member.txt"] rfl (by decide)

/-- On the download path with no expected hash, the final check is
skipped and the path is returned. -/
theorem download_file_result_ok_noHash (hashFn : List Nat → String)
    (server : Request → Response) (fs : FileSys) (url filename : String)
    (chunk_size : Nat)
    (hsat : alreadySatisfied hashFn fs filename none = false)
    (hok : (server (dlRequest fs url filename)).ok = true) :
    (download_file hashFn server fs url filename none chunk_size).result =
      Except.ok filename := by
  unfold download_file
  rw [hsat, hok]
  simp

/-- Whenever `download_file` takes the download path, the destination
file exists afterwards (with the opened or streamed contents), whether
the call returns, raises the HTTP error or raises the integrity error. -/
theorem download_file_keeps_written_file (hashFn : List Nat → String)
    (server : Request → Response) (fs : FileSys) (url filename : String)
    (expected_hash : Option String) (chunk_size : Nat)
    (hsat : alreadySatisfied hashFn fs filename expected_hash = false) :
    ((download_file hashFn server fs url filename expected_hash
        chunk_size).fs filename).isSome := by
  unfold download_file
  rw [hsat]
  simp only [Bool.false_eq_true, if_false]
  by_cases hko : (server (dlRequest fs url filename)).ok = false
  · simp [hko]
  · rw [if_neg hko]
    cases expected_hash with
    | none => simp
    | some h =>
      by_cases hc : h ≠ "" ∧ verify_hash hashFn
          (streamedContent server fs url filename chunk_size) h = false
      · simp [hc]
      · simp [hc]

/-- C8: For every call to `download_zip` where the download succeeds but
the downloaded archive is not a valid ZIP, `download_zip` raises
`zipfile.BadZipFile`, and the temporary archive file
`base_dir/temp_<extract_folder>.zip` is not deleted on this failure path:
it remains on disk, with the downloaded bytes, for diagnosis. -/
theorem C8_download_zip_bad_archive_keeps_temp_file
    (hashFn : List Nat → String)
    (zipParse : List Nat → Option (List (String × List Nat)))
    (server : Request → Response) (w : World) (url : String)
    (extract_folder : String) (expected_hash : Option String)
    (hskip : zipSkip w extract_folder = false)
    (hdl : (download_file hashFn server (filesAfterUnlink w extract_folder)
        url (tempZipName extract_folder) expected_hash 8192).result =
      Except.ok (tempZipName extract_folder))
    (hbad : zipParse (((download_file hashFn server
        (filesAfterUnlink w extract_folder) url (tempZipName extract_folder)
        expected_hash 8192).fs (tempZipName extract_folder)).getD []) =
      none) :
    (download_zip hashFn zipParse server w url extract_folder
        expected_hash).result = Except.error ZipError.badZipFile ∧
    (download_zip hashFn zipParse server w url extract_folder
        expected_hash).world.files (tempZipName extract_folder) =
      (download_file hashFn server (filesAfterUnlink w extract_folder) url
        (tempZipName extract_folder) expected_hash 8192).fs
        (tempZipName extract_folder) ∧
    ((download_zip hashFn zipParse server w url extract_folder
        expected_hash).world.files (tempZipName extract_folder)).isSome := by
  have habs : filesAfterUnlink w extract_folder (tempZipName extract_folder)
      = none := by
    simp [filesAfterUnlink]
  have hsat := alreadySatisfied_absent hashFn
    (filesAfterUnlink w extract_folder) (tempZipName extract_folder)
    expected_hash habs
  have hsome := download_file_keeps_written_file hashFn server
    (filesAfterUnlink w extract_folder) url (tempZipName extract_folder)
    expected_hash 8192 hsat
  unfold download_zip
  rw [hskip]
  simp only [Bool.false_eq_true, if_false]
  rw [hdl, hbad]
  exact ⟨rfl, rfl, hsome⟩

/-- Witness for C8: a server whose two-byte body is rejected by the
archive parser makes `download_zip` raise `BadZipFile` while the
temporary archive stays on disk. -/
theorem C8_witness :
    (download_zip (fun c => "d" ++ toString c.length) (fun _ => none)
        (fun _ => ⟨true, [1, 2]⟩) ⟨fun _ => none, fun _ => none⟩ "u"
        "biogrid" none).result = Except.error ZipError.badZipFile ∧
    (download_zip (fun c => "d" ++ toString c.length) (fun _ => none)
        (fun _ => ⟨true, [1, 2]⟩) ⟨fun _ => none, fun _ => none⟩ "u"
        "biogrid" none).world.files (tempZipName "biogrid") =
      (download_file (fun c => "d" ++ toString c.length)
        (fun _ => ⟨true, [1, 2]⟩)
        (filesAfterUnlink ⟨fun _ => none, fun _ => none⟩ "biogrid") "u"
        (tempZipName "biogrid") none 8192).fs (tempZipName "biogrid") ∧
    ((download_zip (fun c => "d" ++ toString c.length) (fun _ => none)
        (fun _ => ⟨true, [1, 2]⟩) ⟨fun _ => none, fun _ => none⟩ "u"
        "biogrid" none).world.files (tempZipName "biogrid")).isSome :=
  C8_download_zip_bad_archive_keeps_temp_file
    (fun c => "d" ++ toString c.length) (fun _ => none)
    (fun _ => ⟨true, [1, 2]⟩) ⟨fun _ => none, fun _ => none⟩ "u" "biogrid"
    none rfl
    (download_file_result_ok_noHash (fun c => "d" ++ toString c.length)
      (fun _ => ⟨true, [1, 2]⟩)
      (filesAfterUnlink ⟨fun _ => none, fun _ => none⟩ "biogrid") "u"
      (tempZipName "biogrid") 8192 rfl rfl)
    rfl
